import Mathlib

set_option maxHeartbeats 1000000
set_option maxRecDepth 4000

/- Verification development for the PopplerShot batch PDF-to-image converter.
   The definitions below are shallow embeddings of the C++ sources:
   src/pdf_converter.cpp and the BatchProcessor part of src/file_utils.cpp,
   together with the structs declared in include/pdf_converter.h and
   include/batch_processor.h. The poppler rendering backend and the
   filesystem are external collaborators and are abstracted by explicit
   parameters (Document, RunEnv). C++ double arithmetic in the scale
   computation is modelled with exact rationals; the claims checked here
   concern which formulas are applied, not binary rounding. -/

/-- PDFConverter::ConversionResult (include/pdf_converter.h): per-document
outcome with a success flag, an error message (empty on success) and the
count of pages successfully converted. -/
structure ConversionResult where
  success : Bool
  error_message : String
  pages_converted : Nat
deriving DecidableEq

/-- PDFConverter::ConversionOptions (include/pdf_converter.h). dpi is a C++
double, modelled as an exact rational; max_width and max_height are C++ ints
(0 meaning no limit). -/
structure ConversionOptions where
  dpi : Rat
  output_format : String
  preserve_aspect_ratio : Bool
  max_width : Int
  max_height : Int
deriving DecidableEq

/-- Abstract view of a loaded poppler document, the external rendering
backend. pages models doc->pages(); create_page_ok i models
doc->create_page(i) returning non-null for 0-based index i; save_ok i models
save_page_as_image succeeding on that page (valid render plus successful
image save). An async page task that throws is indistinguishable here from a
failed page: convert_pdf catches the exception and does not count the page. -/
structure Document where
  pages : Nat
  create_page_ok : Nat → Bool
  save_ok : Nat → Bool

/-- PDFConverter::convert_pdf (src/pdf_converter.cpp lines 33-125), with the
rendering backend abstracted by Document. load_result is the outcome of
load_document: none when the file is missing, corrupt or locked (lines
17-24). One page task is dispatched per page index 0..pages-1; every
future is collected and counted, so no page failure stops the remaining
pages; success is pages_converted > 0 and the error message is set only on
failure (lines 119-122). -/
def convert_pdf (load_result : Option Document) : ConversionResult :=
  match load_result with
  | none =>
      { success := false, error_message := "Failed to load PDF document", pages_converted := 0 }
  | some doc =>
      let outcomes := (List.range doc.pages).map fun i => doc.create_page_ok i && doc.save_ok i
      let pages_converted := outcomes.foldl (fun acc ok => if ok then acc + 1 else acc) 0
      if pages_converted > 0 then
        { success := true, error_message := "", pages_converted := pages_converted }
      else
        { success := false, error_message := "No pages were successfully converted",
          pages_converted := pages_converted }

/-- PDFConverter::convert_page (src/pdf_converter.cpp lines 135-166). The
second component of the pair lists the 0-based page indices handed to
save_page_as_image, so the early-error paths can be seen to render and save
nothing. page_number is the C++ int argument, 1-based. -/
def convert_page (load_result : Option Document) (page_number : Int) :
    ConversionResult × List Nat :=
  match load_result with
  | none =>
      ({ success := false, error_message := "Failed to load PDF document", pages_converted := 0 },
       [])
  | some doc =>
      if page_number < 1 ∨ page_number > (doc.pages : Int) then
        ({ success := false, error_message := "Invalid page number", pages_converted := 0 }, [])
      else if doc.create_page_ok (page_number - 1).toNat = false then
        ({ success := false, error_message := "Failed to create page", pages_converted := 0 }, [])
      else if doc.save_ok (page_number - 1).toNat then
        ({ success := true, error_message := "", pages_converted := 1 },
         [(page_number - 1).toNat])
      else
        ({ success := false, error_message := "Failed to save page as image",
           pages_converted := 0 },
         [(page_number - 1).toNat])

/-- std::min on doubles, modelled on rationals: the second argument is
returned exactly when it is smaller. -/
def rat_min (a b : Rat) : Rat := if b < a then b else a

/-- A pair of per-axis scale factors, as computed inside
PDFConverter::save_page_as_image. -/
structure ScalePair where
  scale_x : Rat
  scale_y : Rat
deriving DecidableEq

/-- Scale computation from PDFConverter::save_page_as_image
(src/pdf_converter.cpp lines 177-206): base scale dpi/72 on both axes; when
a maximum is configured, each axis whose target rendered dimension exceeds
its maximum gets scale recomputed as maximum / page dimension; with
preserve_aspect_ratio set, both axes are forced to the minimum of the two
factors. -/
def compute_scale (page_width page_height : Rat) (options : ConversionOptions) : ScalePair :=
  let scale_x : Rat := options.dpi / 72
  let scale_y : Rat := options.dpi / 72
  if options.max_width > 0 ∨ options.max_height > 0 then
    let target_width := page_width * scale_x
    let target_height := page_height * scale_y
    let scale_x2 :=
      if options.max_width > 0 ∧ target_width > (options.max_width : Rat) then
        (options.max_width : Rat) / page_width
      else scale_x
    let scale_y2 :=
      if options.max_height > 0 ∧ target_height > (options.max_height : Rat) then
        (options.max_height : Rat) / page_height
      else scale_y
    if options.preserve_aspect_ratio then
      { scale_x := rat_min scale_x2 scale_y2, scale_y := rat_min scale_x2 scale_y2 }
    else
      { scale_x := scale_x2, scale_y := scale_y2 }
  else
    { scale_x := scale_x, scale_y := scale_y }

/-- Scale selection as the specification words it (spec.md section 4.2):
base scale dpi/72 on both axes; if a maximum width and/or height is
configured and the corresponding rendered dimension would exceed it, the
scale on that axis is recomputed as maximum / page dimension; if
preserve-aspect-ratio is set, both axes are forced to the smaller of the two
resulting scale factors, otherwise the axes scale independently. -/
def spec_scale (page_width page_height : Rat) (options : ConversionOptions) : ScalePair :=
  let base : Rat := options.dpi / 72
  let sx :=
    if options.max_width > 0 ∧ page_width * base > (options.max_width : Rat) then
      (options.max_width : Rat) / page_width
    else base
  let sy :=
    if options.max_height > 0 ∧ page_height * base > (options.max_height : Rat) then
      (options.max_height : Rat) / page_height
    else base
  if options.preserve_aspect_ratio then
    { scale_x := rat_min sx sy, scale_y := rat_min sx sy }
  else
    { scale_x := sx, scale_y := sy }

/-- Characters of a path after the last path separator, i.e. the filename
component used by std::filesystem::path::filename. -/
def after_last (sep : Char) (cs : List Char) : List Char :=
  cs.foldl (fun acc c => if c = sep then [] else acc ++ [c]) []

/-- Drop the suffix of a filename starting at the last period, mirroring how
std::filesystem::path::stem removes the extension. Returns [] when the only
period is at the very front (that case is handled by path_stem). -/
def drop_from_last_dot : List Char → List Char
  | [] => []
  | c :: rest =>
      if rest.contains '.' then c :: drop_from_last_dot rest
      else if c = '.' then []
      else c :: drop_from_last_dot rest

/-- std::filesystem::path(p).filename(), for paths using the slash
separator. -/
def path_filename (p : String) : String :=
  String.mk (after_last '/' p.toList)

/-- std::filesystem::path(p).stem(), as used by
PDFConverter::generate_output_filename and FileUtils::
get_filename_without_extension: the filename without its extension; "." and
".." and names whose only period leads (e.g. ".bashrc") keep their text. -/
def path_stem (p : String) : String :=
  let f := path_filename p
  if f = "." ∨ f = ".." then f
  else
    let s := String.mk (drop_from_last_dot f.toList)
    if s.isEmpty then f else s

/-- Decimal digit character, as produced by std::to_string. -/
def natDigitChar (n : Nat) : Char := Char.ofNat (48 + n)

/-- Fuel-indexed decimal digit accumulator; with fuel above the argument it
produces the decimal digits of n (most significant first) in front of acc. -/
def natDigitsAux : Nat → Nat → List Char → List Char
  | 0, _, acc => acc
  | fuel + 1, n, acc =>
      if n < 10 then natDigitChar n :: acc
      else natDigitsAux fuel (n / 10) (natDigitChar (n % 10) :: acc)

/-- Decimal representation of a natural number, as std::to_string produces
it. -/
def nat_to_string (n : Nat) : String :=
  String.mk (natDigitsAux (n + 1) n [])

/-- std::to_string on a C++ int value. -/
def int_to_string (i : Int) : String :=
  if i < 0 then "-" ++ nat_to_string i.natAbs else nat_to_string i.toNat

/-- Zero padding to width 3, the claim-side reading of the filename format:
the page number string is preceded by enough zeros to reach width 3. -/
def zero_pad_width_3 (s : String) : String :=
  String.mk (List.replicate (3 - s.length) '0') ++ s

/-- PDFConverter::generate_output_filename (src/pdf_converter.cpp lines
234-244). The pad count is computed in the source as the size_t expression
3 - std::to_string(page_number).length(); when the digit string is longer
than 3 that subtraction wraps around to an astronomic count and the
std::string fill constructor throws std::length_error, modelled here as
none. -/
def generate_output_filename (pdf_path : String) (page_number : Int) (extension : String) :
    Option String :=
  let base_name := path_stem pdf_path
  let digits := int_to_string page_number
  if digits.length ≤ 3 then
    some (base_name ++ "_page_" ++ String.mk (List.replicate (3 - digits.length) '0')
      ++ digits ++ "." ++ extension)
  else none

/-- BatchProcessor::BatchResult (include/batch_processor.h): the aggregate
report of one batch run. All counters are C++ ints only ever incremented
from zero, so they are modelled as naturals. -/
structure BatchResult where
  total_pdfs : Nat
  successful_conversions : Nat
  failed_conversions : Nat
  total_pages_converted : Nat
  errors : List String
deriving DecidableEq

/-- Observable side effects of BatchProcessor::process_directory, used to
state where output-directory preparation happens and how many workers are
spawned. -/
inductive BatchAction where
  | prepOutputDir : BatchAction
  | spawnWorker : BatchAction
  | convertJob : String → BatchAction
deriving DecidableEq

/-- The environment one process_directory run sees: the PDF files discovered
by FileUtils::find_pdf_files, whether FileUtils::ensure_output_directory
succeeds, and the ConversionResult the converter produces for each file. -/
structure RunEnv where
  pdf_files : List String
  ensure_output_ok : Bool
  conv : String → ConversionResult

/-- The mutex-guarded result update in BatchProcessor::worker_thread
(src/file_utils.cpp lines 212-221): a successful conversion bumps the
success counter and the page total; a failed one bumps the failure counter
and appends "path: message" to the error list. -/
def record_result (file : String) (conversion_result : ConversionResult)
    (acc : BatchResult) : BatchResult :=
  if conversion_result.success then
    { acc with
      successful_conversions := acc.successful_conversions + 1,
      total_pages_converted := acc.total_pages_converted + conversion_result.pages_converted }
  else
    { acc with
      failed_conversions := acc.failed_conversions + 1,
      errors := acc.errors ++ [file ++ ": " ++ conversion_result.error_message] }

/-- The constructor normalization BatchProcessor::BatchProcessor
(src/file_utils.cpp lines 94-100): a requested count ≤ 0 is replaced by
std::thread::hardware_concurrency(), which is 0 when undetectable. -/
def normalize_thread_count (num_threads : Int) (hardware_concurrency : Nat) : Int :=
  if num_threads ≤ 0 then (hardware_concurrency : Int) else num_threads

/-- BatchProcessor::process_directory (src/file_utils.cpp lines 121-174)
together with its action trace. The early returns (no PDFs found, output
directory preparation failed) follow the source line by line; total_pdfs is
set to the discovered count before either check. The worker phase is
sequentialized: the spawn loop emits num_threads_.toNat spawnWorker actions
(the loop body runs num_threads_ times for a positive count and never for a
count ≤ 0), and with at least one worker every job is claimed exactly once
and recorded, which the interleaved worker model below proves for every
uncancelled completed run; with zero workers the join loop finishes
immediately and no job is processed. -/
def process_directory (env : RunEnv) (num_threads : Int) :
    BatchResult × List BatchAction :=
  let result : BatchResult :=
    { total_pdfs := env.pdf_files.length, successful_conversions := 0,
      failed_conversions := 0, total_pages_converted := 0, errors := [] }
  if env.pdf_files.isEmpty then
    ({ result with errors := ["No PDF files found in input directory"] }, [])
  else if env.ensure_output_ok = false then
    ({ result with errors := ["Failed to create output directory"] },
     [BatchAction.prepOutputDir])
  else if num_threads.toNat = 0 then
    (result, [BatchAction.prepOutputDir])
  else
    (env.pdf_files.foldl (fun acc f => record_result f (env.conv f) acc) result,
     BatchAction.prepOutputDir ::
       (List.replicate num_threads.toNat BatchAction.spawnWorker
         ++ env.pdf_files.map BatchAction.convertJob))

/-- Program counter of one worker thread executing
BatchProcessor::worker_thread (src/file_utils.cpp lines 176-223). atCheck:
about to read cancel_requested_ at the top of the while loop; atClaim: the
check passed, about to run file_index.fetch_add(1); processing idx: claimed
the in-range index idx and is converting it; done: the loop exited. The
cancel check and the atomic claim are two separate machine steps, exactly as
in the source. -/
inductive WPC where
  | atCheck : WPC
  | atClaim : WPC
  | processing : Nat → WPC
  | done : WPC
deriving DecidableEq

/-- Shared state of one batch run during the worker phase: the cancellation
flag cancel_requested_, the atomic claim counter file_index, each worker's
program counter, and the list of job indices already recorded into the
shared BatchResult (in record order). -/
structure BState where
  cancel : Bool
  fileIndex : Nat
  workers : List WPC
  recorded : List Nat
deriving DecidableEq

/-- Events of the worker phase, labelling the interleaved steps. -/
inductive BEvent where
  | checkPass : Nat → BEvent
  | checkExit : Nat → BEvent
  | claim : Nat → Nat → BEvent
  | record : Nat → Nat → BEvent
  | cancelEv : BEvent
deriving DecidableEq

/-- Lookup of a worker program counter by worker id. -/
def wget : List WPC → Nat → Option WPC
  | [], _ => none
  | a :: _, 0 => some a
  | _ :: t, n + 1 => wget t n

/-- Update of a worker program counter by worker id. -/
def wset : List WPC → Nat → WPC → List WPC
  | [], _, _ => []
  | _ :: t, 0, b => b :: t
  | a :: t, n + 1, b => a :: wset t n b

/-- Number of workers whose program counter equals x. -/
def wcount (x : WPC) : List WPC → Nat
  | [] => 0
  | a :: t => (if a = x then 1 else 0) + wcount x t

/-- One interleaved step of the worker phase of a run over N discovered
jobs. checkPass and checkExit are the two outcomes of the while-condition
read of cancel_requested_; claim is the fetch_add, which the source performs
without re-reading the flag and which either enters the conversion (index in
range) or breaks out of the loop (index past the end); record is the
mutex-guarded result update after convert_pdf returns; cancelEv is
BatchProcessor::cancel_processing (src/file_utils.cpp lines 229-232) setting
the flag from the outside, at most once per run. -/
inductive BStep (N : Nat) : BState → BEvent → BState → Prop where
  | checkPass (s : BState) (w : Nat)
      (hw : wget s.workers w = some WPC.atCheck) (hc : s.cancel = false) :
      BStep N s (BEvent.checkPass w) { s with workers := wset s.workers w WPC.atClaim }
  | checkExit (s : BState) (w : Nat)
      (hw : wget s.workers w = some WPC.atCheck) (hc : s.cancel = true) :
      BStep N s (BEvent.checkExit w) { s with workers := wset s.workers w WPC.done }
  | claimInRange (s : BState) (w : Nat)
      (hw : wget s.workers w = some WPC.atClaim) (hlt : s.fileIndex < N) :
      BStep N s (BEvent.claim w s.fileIndex)
        { s with fileIndex := s.fileIndex + 1,
                 workers := wset s.workers w (WPC.processing s.fileIndex) }
  | claimOut (s : BState) (w : Nat)
      (hw : wget s.workers w = some WPC.atClaim) (hge : N ≤ s.fileIndex) :
      BStep N s (BEvent.claim w s.fileIndex)
        { s with fileIndex := s.fileIndex + 1, workers := wset s.workers w WPC.done }
  | record (s : BState) (w idx : Nat)
      (hw : wget s.workers w = some (WPC.processing idx)) :
      BStep N s (BEvent.record w idx)
        { s with workers := wset s.workers w WPC.atCheck, recorded := s.recorded ++ [idx] }
  | cancel (s : BState) (hc : s.cancel = false) :
      BStep N s BEvent.cancelEv { s with cancel := true }

/-- A finite interleaving of worker-phase steps with its event labels. -/
inductive BTrace (N : Nat) : BState → List BEvent → BState → Prop where
  | nil (s : BState) : BTrace N s [] s
  | cons (s : BState) (e : BEvent) (s2 : BState) (evs : List BEvent) (s3 : BState) :
      BStep N s e s2 → BTrace N s2 evs s3 → BTrace N s (e :: evs) s3

/-- State right after process_directory launches k workers: flag reset to
false (src/file_utils.cpp line 128), claim counter zero, every worker at the
top of its loop, nothing recorded. -/
def initState (k : Nat) : BState :=
  { cancel := false, fileIndex := 0, workers := List.replicate k WPC.atCheck, recorded := [] }

/-- All workers have exited their loops: the join in process_directory
(src/file_utils.cpp lines 164-168) has returned. -/
def terminalState (s : BState) : Prop :=
  ∀ pc ∈ s.workers, pc = WPC.done

/-- Number of claim events performed by worker w in an event list. -/
def claimsBy (w : Nat) (evs : List BEvent) : Nat :=
  evs.countP fun e =>
    match e with
    | BEvent.claim v _ => v == w
    | _ => false

/-- How many more claims worker w can still perform once the cancellation
flag is set: one if it already passed its while-condition check, none
otherwise. -/
def claimPotential (s : BState) (w : Nat) : Nat :=
  if wget s.workers w = some WPC.atClaim then 1 else 0

/-- The final BatchResult assembled from the recorded job indices, with
file idx the path of job idx and conv idx the converter outcome for it
(convert_pdf is deterministic per file, src/file_utils.cpp line 209). -/
def aggregate_recorded (file : Nat → String) (conv : Nat → ConversionResult)
    (total : Nat) (recorded : List Nat) : BatchResult :=
  recorded.foldl (fun acc idx => record_result (file idx) (conv idx) acc)
    { total_pdfs := total, successful_conversions := 0, failed_conversions := 0,
      total_pages_converted := 0, errors := [] }

/-- Weight of a program counter in the count of in-flight conversions. -/
def pweight : WPC → Nat
  | WPC.processing _ => 1
  | _ => 0

/-- Number of workers currently converting a claimed job. -/
def processingCount : List WPC → Nat
  | [] => 0
  | a :: t => pweight a + processingCount t

lemma wget_some_lt {ws : List WPC} {w : Nat} {a : WPC} (h : wget ws w = some a) :
    w < ws.length := by
  induction ws generalizing w with
  | nil => simp [wget] at h
  | cons x t ih =>
      cases w with
      | zero => simp
      | succ v => exact Nat.succ_lt_succ (ih h)

lemma wset_length (ws : List WPC) (w : Nat) (b : WPC) : (wset ws w b).length = ws.length := by
  induction ws generalizing w with
  | nil => rfl
  | cons x t ih =>
      cases w with
      | zero => rfl
      | succ v => simp [wset, ih]

lemma wget_wset_self {ws : List WPC} {w : Nat} (b : WPC) (h : w < ws.length) :
    wget (wset ws w b) w = some b := by
  induction ws generalizing w with
  | nil => simp at h
  | cons x t ih =>
      cases w with
      | zero => rfl
      | succ v => exact ih (Nat.lt_of_succ_lt_succ h)

lemma wget_wset_ne (ws : List WPC) {v w : Nat} (b : WPC) (h : v ≠ w) :
    wget (wset ws v b) w = wget ws w := by
  induction ws generalizing v w with
  | nil => rfl
  | cons x t ih =>
      cases v with
      | zero =>
          cases w with
          | zero => exact absurd rfl h
          | succ w2 => rfl
      | succ v2 =>
          cases w with
          | zero => rfl
          | succ w2 => exact ih fun hc => h (by omega)

lemma mem_wset {ws : List WPC} {w : Nat} {b x : WPC} (h : x ∈ wset ws w b) :
    x = b ∨ x ∈ ws := by
  induction ws generalizing w with
  | nil => simp [wset] at h
  | cons y t ih =>
      cases w with
      | zero =>
          rcases List.mem_cons.mp h with h2 | h2
          · exact Or.inl h2
          · exact Or.inr (List.mem_cons.mpr (Or.inr h2))
      | succ v =>
          rcases List.mem_cons.mp h with h2 | h2
          · exact Or.inr (List.mem_cons.mpr (Or.inl h2))
          · rcases ih h2 with h3 | h3
            · exact Or.inl h3
            · exact Or.inr (List.mem_cons.mpr (Or.inr h3))

lemma wcount_wset {ws : List WPC} {w : Nat} {a : WPC} (b x : WPC)
    (h : wget ws w = some a) :
    wcount x (wset ws w b) + (if a = x then 1 else 0)
      = wcount x ws + (if b = x then 1 else 0) := by
  induction ws generalizing w with
  | nil => simp [wget] at h
  | cons y t ih =>
      cases w with
      | zero =>
          have hy : y = a := by simpa [wget] using h
          subst hy
          simp only [wset, wcount]
          omega
      | succ v =>
          have h2 := ih (w := v) h
          simp only [wset, wcount]
          omega

lemma wcount_wset_other {ws : List WPC} {w : Nat} {a : WPC} {b x : WPC}
    (h : wget ws w = some a) (ha : a ≠ x) (hb : b ≠ x) :
    wcount x (wset ws w b) = wcount x ws := by
  have h2 := wcount_wset b x h
  simp [ha, hb] at h2
  exact h2

lemma wcount_wset_add {ws : List WPC} {w : Nat} {a : WPC} {x : WPC}
    (h : wget ws w = some a) (ha : a ≠ x) :
    wcount x (wset ws w x) = wcount x ws + 1 := by
  have h2 := wcount_wset x x h
  simp [ha] at h2
  exact h2

lemma wcount_wset_sub {ws : List WPC} {w : Nat} {b x : WPC}
    (h : wget ws w = some x) (hb : b ≠ x) :
    wcount x (wset ws w b) + 1 = wcount x ws := by
  have h2 := wcount_wset b x h
  simp [hb] at h2
  exact h2

lemma wcount_eq_zero {ws : List WPC} {x : WPC} (h : ∀ a ∈ ws, a ≠ x) :
    wcount x ws = 0 := by
  induction ws with
  | nil => rfl
  | cons y t ih =>
      have hy : y ≠ x := h y (List.mem_cons_self y t)
      have h2 := ih fun a ha => h a (List.mem_cons_of_mem y ha)
      simp only [wcount, if_neg hy]
      omega

lemma wcount_replicate_atCheck (k : Nat) (x : WPC) (hx : x ≠ WPC.atCheck) :
    wcount x (List.replicate k WPC.atCheck) = 0 :=
  wcount_eq_zero fun a ha => by
    rw [List.eq_of_mem_replicate ha]
    exact fun hc => hx hc.symm

lemma pcount_wset {ws : List WPC} {w : Nat} {a : WPC} (b : WPC)
    (h : wget ws w = some a) :
    processingCount (wset ws w b) + pweight a = processingCount ws + pweight b := by
  induction ws generalizing w with
  | nil => simp [wget] at h
  | cons y t ih =>
      cases w with
      | zero =>
          have hy : y = a := by simpa [wget] using h
          subst hy
          simp only [wset, processingCount]
          omega
      | succ v =>
          have h2 := ih (w := v) h
          simp only [wset, processingCount]
          omega

lemma pcount_eq_zero {ws : List WPC} (h : ∀ a ∈ ws, pweight a = 0) :
    processingCount ws = 0 := by
  induction ws with
  | nil => rfl
  | cons y t ih =>
      have h2 := ih fun a ha => h a (List.mem_cons_of_mem y ha)
      simp only [processingCount, h y (List.mem_cons_self y t)]
      omega

lemma pcount_replicate_atCheck (k : Nat) :
    processingCount (List.replicate k WPC.atCheck) = 0 :=
  pcount_eq_zero fun a ha => by rw [List.eq_of_mem_replicate ha]; rfl

/-- Inductive invariant of the worker phase: the worker list keeps its size;
while the flag is unset a finished worker proves every index was handed out;
each in-range claimed index is accounted for exactly once, either already
recorded or held by the worker converting it. -/
def ReachInv (N k : Nat) (s : BState) : Prop :=
  s.workers.length = k ∧
  (s.cancel = false → WPC.done ∈ s.workers → N ≤ s.fileIndex) ∧
  s.recorded.length + processingCount s.workers = min s.fileIndex N ∧
  ∀ idx : Nat, List.count idx s.recorded + wcount (WPC.processing idx) s.workers
    = if idx < min s.fileIndex N then 1 else 0

lemma reachInv_init (N k : Nat) : ReachInv N k (initState k) := by
  refine ⟨List.length_replicate k WPC.atCheck, ?_, ?_, ?_⟩
  · intro _ hmem
    have := List.eq_of_mem_replicate hmem
    simp at this
  · simp [initState, pcount_replicate_atCheck]
  · intro idx
    simp [initState, wcount_replicate_atCheck k (WPC.processing idx) (by simp)]

lemma reachInv_step {N k : Nat} {s : BState} {e : BEvent} {s2 : BState}
    (h : BStep N s e s2) (hi : ReachInv N k s) : ReachInv N k s2 := by
  obtain ⟨hlen, hdone, hpc, hcnt⟩ := hi
  cases h with
  | checkPass w hw hc =>
      refine ⟨by rw [wset_length]; exact hlen, ?_, ?_, ?_⟩
      · intro h1 h2
        rcases mem_wset h2 with h3 | h3
        · exact absurd h3 (by simp)
        · exact hdone h1 h3
      · have h4 := pcount_wset (a := WPC.atCheck) WPC.atClaim hw
        simp only [pweight] at h4
        simp only []
        omega
      · intro idx
        have h4 := wcount_wset_other (a := WPC.atCheck) (b := WPC.atClaim)
          (x := WPC.processing idx) hw (by simp) (by simp)
        simp only [h4]
        exact hcnt idx
  | checkExit w hw hc =>
      refine ⟨by rw [wset_length]; exact hlen, ?_, ?_, ?_⟩
      · intro h1 _
        rw [hc] at h1
        cases h1
      · have h4 := pcount_wset (a := WPC.atCheck) WPC.done hw
        simp only [pweight] at h4
        simp only []
        omega
      · intro idx
        have h4 := wcount_wset_other (a := WPC.atCheck) (b := WPC.done)
          (x := WPC.processing idx) hw (by simp) (by simp)
        simp only [h4]
        exact hcnt idx
  | claimInRange w hw hlt =>
      refine ⟨by rw [wset_length]; exact hlen, ?_, ?_, ?_⟩
      · intro h1 h2
        rcases mem_wset h2 with h3 | h3
        · exact absurd h3 (by simp)
        · exact Nat.le_succ_of_le (hdone h1 h3)
      · have h4 := pcount_wset (a := WPC.atClaim) (WPC.processing s.fileIndex) hw
        simp only [pweight] at h4
        simp only []
        omega
      · intro idx
        by_cases hidx : idx = s.fileIndex
        · rw [hidx]
          have h4 := wcount_wset_add (a := WPC.atClaim)
            (x := WPC.processing s.fileIndex) hw (by simp)
          have h5 := hcnt s.fileIndex
          rw [if_neg (by omega)] at h5
          simp only [h4]
          rw [if_pos (by omega)]
          omega
        · have h4 := wcount_wset_other (a := WPC.atClaim)
            (b := WPC.processing s.fileIndex) (x := WPC.processing idx) hw
            (by simp) (by simp only [Ne, WPC.processing.injEq]; omega)
          have h5 := hcnt idx
          simp only [h4]
          by_cases hlt2 : idx < s.fileIndex
          · rw [if_pos (by omega)] at h5
            rw [if_pos (by omega)]
            exact h5
          · rw [if_neg (by omega)] at h5
            rw [if_neg (by omega)]
            exact h5
  | claimOut w hw hge =>
      refine ⟨by rw [wset_length]; exact hlen, ?_, ?_, ?_⟩
      · intro _ _
        exact Nat.le_succ_of_le hge
      · have h4 := pcount_wset (a := WPC.atClaim) WPC.done hw
        simp only [pweight] at h4
        simp only []
        omega
      · intro idx
        have h4 := wcount_wset_other (a := WPC.atClaim) (b := WPC.done)
          (x := WPC.processing idx) hw (by simp) (by simp)
        have h5 := hcnt idx
        simp only [h4]
        have hmin : min (s.fileIndex + 1) N = min s.fileIndex N := by omega
        rw [hmin]
        exact h5
  | record w idx0 hw =>
      refine ⟨by rw [wset_length]; exact hlen, ?_, ?_, ?_⟩
      · intro h1 h2
        rcases mem_wset h2 with h3 | h3
        · exact absurd h3 (by simp)
        · exact hdone h1 h3
      · have h4 := pcount_wset (a := WPC.processing idx0) WPC.atCheck hw
        simp only [pweight] at h4
        simp only [List.length_append, List.length_singleton]
        omega
      · intro idx
        have h5 := hcnt idx
        rw [List.count_append, List.count_singleton']
        by_cases hidx : idx = idx0
        · rw [hidx]
          have h4 := wcount_wset_sub (b := WPC.atCheck)
            (x := WPC.processing idx0) hw (by simp)
          have h6 := hcnt idx0
          rw [if_pos rfl]
          dsimp only
          omega
        · have h4 := wcount_wset_other (a := WPC.processing idx0)
            (b := WPC.atCheck) (x := WPC.processing idx) hw
            (by simp [Ne, WPC.processing.injEq]; omega) (by simp)
          rw [if_neg (by omega)]
          simp only [h4]
          omega
  | cancel hc =>
      refine ⟨hlen, ?_, hpc, hcnt⟩
      intro h1 _
      simp at h1

lemma reachInv_trace {N k : Nat} : ∀ {s : BState} {evs : List BEvent} {s2 : BState},
    BTrace N s evs s2 → ReachInv N k s → ReachInv N k s2 := by
  intro s evs s2 h
  induction h with
  | nil s => exact id
  | cons s e s2 evs s3 hstep _ ih => exact fun hi => ih (reachInv_step hstep hi)

lemma cancel_mono {N : Nat} {s : BState} {e : BEvent} {s2 : BState}
    (h : BStep N s e s2) (hc : s.cancel = true) : s2.cancel = true := by
  cases h with
  | checkPass w hw hc2 => rw [hc] at hc2; cases hc2
  | checkExit w hw hc2 => exact hc
  | claimInRange w hw hlt => exact hc
  | claimOut w hw hge => exact hc
  | record w idx hw => exact hc
  | cancel hc2 => rfl

lemma cancel_of_not_mem {N : Nat} : ∀ {s : BState} {evs : List BEvent} {s2 : BState},
    BTrace N s evs s2 → BEvent.cancelEv ∉ evs → s2.cancel = s.cancel := by
  intro s evs s2 h
  induction h with
  | nil s => intro _; rfl
  | cons s e s2 evs s3 hstep _ ih =>
      intro hmem
      have hne : e ≠ BEvent.cancelEv := fun hc => hmem (by rw [hc]; exact List.mem_cons_self _ _)
      have htail : BEvent.cancelEv ∉ evs := fun hc => hmem (List.mem_cons_of_mem e hc)
      have h2 : s2.cancel = s.cancel := by
        cases hstep with
        | checkPass w hw hc2 => rfl
        | checkExit w hw hc2 => rfl
        | claimInRange w hw hlt => rfl
        | claimOut w hw hge => rfl
        | record w idx hw => rfl
        | cancel hc2 => exact absurd rfl hne
      rw [ih htail, h2]

lemma potential_step {N : Nat} {s : BState} {e : BEvent} {s2 : BState}
    (h : BStep N s e s2) (hc : s.cancel = true) (w : Nat) :
    claimsBy w [e] + claimPotential s2 w ≤ claimPotential s w := by
  cases h with
  | checkPass v hw hc2 => rw [hc] at hc2; cases hc2
  | checkExit v hw hc2 =>
      have hd : claimsBy w [BEvent.checkExit v] = 0 := by simp [claimsBy]
      rw [hd, Nat.zero_add]
      by_cases hvw : v = w
      · subst hvw
        simp only [claimPotential, wget_wset_self WPC.done (wget_some_lt hw)]
        rw [if_neg (by simp)]
        exact Nat.zero_le _
      · simp only [claimPotential, wget_wset_ne s.workers WPC.done hvw]
        exact Nat.le_refl _
  | claimInRange v hw hlt =>
      by_cases hvw : v = w
      · subst hvw
        have hd : claimsBy v [BEvent.claim v s.fileIndex] = 1 := by simp [claimsBy]
        rw [hd]
        simp only [claimPotential,
          wget_wset_self (WPC.processing s.fileIndex) (wget_some_lt hw), hw]
        simp
      · have hd : claimsBy w [BEvent.claim v s.fileIndex] = 0 := by simp [claimsBy, hvw]
        rw [hd, Nat.zero_add]
        simp only [claimPotential,
          wget_wset_ne s.workers (WPC.processing s.fileIndex) hvw]
        exact Nat.le_refl _
  | claimOut v hw hge =>
      by_cases hvw : v = w
      · subst hvw
        have hd : claimsBy v [BEvent.claim v s.fileIndex] = 1 := by simp [claimsBy]
        rw [hd]
        simp only [claimPotential, wget_wset_self WPC.done (wget_some_lt hw), hw]
        simp
      · have hd : claimsBy w [BEvent.claim v s.fileIndex] = 0 := by simp [claimsBy, hvw]
        rw [hd, Nat.zero_add]
        simp only [claimPotential, wget_wset_ne s.workers WPC.done hvw]
        exact Nat.le_refl _
  | record v idx hw =>
      have hd : claimsBy w [BEvent.record v idx] = 0 := by simp [claimsBy]
      rw [hd, Nat.zero_add]
      by_cases hvw : v = w
      · subst hvw
        simp only [claimPotential, wget_wset_self WPC.atCheck (wget_some_lt hw), hw]
        simp
      · simp only [claimPotential, wget_wset_ne s.workers WPC.atCheck hvw]
        exact Nat.le_refl _
  | cancel hc2 => rw [hc] at hc2; cases hc2

lemma claimsBy_cons (w : Nat) (e : BEvent) (evs : List BEvent) :
    claimsBy w (e :: evs) = claimsBy w [e] + claimsBy w evs := by
  simp only [claimsBy, List.countP_cons, List.countP_nil]
  omega

lemma claims_le_potential {N : Nat} : ∀ {s : BState} {evs : List BEvent} {s2 : BState},
    BTrace N s evs s2 → s.cancel = true → ∀ w, claimsBy w evs ≤ claimPotential s w := by
  intro s evs s2 h
  induction h with
  | nil s => intro _ w; simp [claimsBy]
  | cons s e s2 evs s3 hstep _ ih =>
      intro hc w
      have h2 := ih (cancel_mono hstep hc) w
      have h3 := potential_step hstep hc w
      rw [claimsBy_cons]
      omega

lemma claimPotential_le_one (s : BState) (w : Nat) : claimPotential s w ≤ 1 := by
  unfold claimPotential
  split
  · exact le_refl 1
  · exact Nat.zero_le 1

lemma btrace_append_split {N : Nat} : ∀ (l1 : List BEvent) {l2 : List BEvent}
    {s0 s2 : BState}, BTrace N s0 (l1 ++ l2) s2 →
    ∃ smid, BTrace N s0 l1 smid ∧ BTrace N smid l2 s2 := by
  intro l1
  induction l1 with
  | nil =>
      intro l2 s0 s2 h
      exact ⟨s0, BTrace.nil s0, h⟩
  | cons e t ih =>
      intro l2 s0 s2 h
      cases h with
      | cons _ _ smid2 _ _ hstep hrest =>
          obtain ⟨smid, h1, h2⟩ := ih hrest
          exact ⟨smid, BTrace.cons _ _ _ _ _ hstep h1, h2⟩

lemma cancel_step_inversion {N : Nat} {s s2 : BState}
    (h : BStep N s BEvent.cancelEv s2) : s2 = { s with cancel := true } := by
  cases h with
  | cancel hc => rfl

lemma btrace_cons_split {N : Nat} {s0 : BState} {e : BEvent} {l : List BEvent}
    {s2 : BState} (h : BTrace N s0 (e :: l) s2) :
    ∃ smid, BStep N s0 e smid ∧ BTrace N smid l s2 := by
  cases h with
  | cons _ _ _ _ _ hstep hrest => exact ⟨_, hstep, hrest⟩

lemma natDigitsAux_one (f n : Nat) (acc : List Char) (h : n < 10) :
    natDigitsAux (f + 1) n acc = natDigitChar n :: acc := by
  simp [natDigitsAux, h]

lemma natDigitsAux_two (f n : Nat) (acc : List Char) (h1 : 10 ≤ n) (h2 : n < 100) :
    natDigitsAux (f + 2) n acc
      = natDigitChar (n / 10) :: natDigitChar (n % 10) :: acc := by
  have hn : ¬ n < 10 := by omega
  have hcall : natDigitsAux (f + 2) n acc
      = natDigitsAux (f + 1) (n / 10) (natDigitChar (n % 10) :: acc) := by
    simp [natDigitsAux, hn]
  rw [hcall, natDigitsAux_one f (n / 10) _ (by omega)]

lemma natDigitsAux_three (f n : Nat) (acc : List Char) (h1 : 100 ≤ n) (h2 : n < 1000) :
    natDigitsAux (f + 3) n acc
      = natDigitChar (n / 100) :: natDigitChar (n / 10 % 10) :: natDigitChar (n % 10) :: acc := by
  have hn : ¬ n < 10 := by omega
  have hcall : natDigitsAux (f + 3) n acc
      = natDigitsAux (f + 2) (n / 10) (natDigitChar (n % 10) :: acc) := by
    simp [natDigitsAux, hn]
  rw [hcall, natDigitsAux_two f (n / 10) _ (by omega) (by omega)]
  rw [show n / 10 / 10 = n / 100 from by omega]

lemma nat_to_string_length_le (n : Nat) (h : n ≤ 999) :
    (nat_to_string n).length ≤ 3 := by
  by_cases h1 : n < 10
  · rw [nat_to_string, natDigitsAux_one n n [] h1]
    simp [String.length]
  · by_cases h2 : n < 100
    · rw [nat_to_string, show n + 1 = (n - 1) + 2 from by omega,
        natDigitsAux_two (n - 1) n [] (by omega) h2]
      simp [String.length]
    · rw [nat_to_string, show n + 1 = (n - 2) + 3 from by omega,
        natDigitsAux_three (n - 2) n [] (by omega) (by omega)]
      simp [String.length]

lemma int_to_string_length_le (p : Int) (h1 : 1 ≤ p) (h2 : p ≤ 999) :
    (int_to_string p).length ≤ 3 := by
  rw [int_to_string, if_neg (by omega)]
  exact nat_to_string_length_le p.toNat (by omega)

lemma zero_pad_width_3_length (s : String) (h : s.length ≤ 3) :
    (zero_pad_width_3 s).length = 3 := by
  obtain ⟨data⟩ := s
  rw [zero_pad_width_3, String.length_append]
  simp only [String.length]
  simp only [String.length] at h
  simp only [List.length_replicate]
  omega

lemma foldl_count_bools (l : List Bool) (n : Nat) :
    l.foldl (fun acc ok => if ok then acc + 1 else acc) n
      = n + l.countP (fun b => b) := by
  induction l generalizing n with
  | nil => simp
  | cons b t ih =>
      cases b with
      | false => simp [List.countP_cons, ih]
      | true => simp [List.countP_cons, ih (n + 1)]; omega

lemma record_foldl_counts {α : Type} (g : α → String) (c : α → ConversionResult) :
    ∀ (l : List α) (acc : BatchResult),
      ((l.foldl (fun a x => record_result (g x) (c x) a) acc).successful_conversions
          + (l.foldl (fun a x => record_result (g x) (c x) a) acc).failed_conversions
          = acc.successful_conversions + acc.failed_conversions + l.length)
      ∧ (l.foldl (fun a x => record_result (g x) (c x) a) acc).total_pdfs = acc.total_pdfs := by
  intro l
  induction l with
  | nil => intro acc; simp
  | cons x t ih =>
      intro acc
      have h2 := ih (record_result (g x) (c x) acc)
      have h3 : (record_result (g x) (c x) acc).successful_conversions
            + (record_result (g x) (c x) acc).failed_conversions
          = acc.successful_conversions + acc.failed_conversions + 1 := by
        rw [record_result]
        split
        · simp
          omega
        · simp
          omega
      have h4 : (record_result (g x) (c x) acc).total_pdfs = acc.total_pdfs := by
        rw [record_result]
        split
        · rfl
        · rfl
      simp only [List.foldl_cons, List.length_cons]
      refine ⟨?_, ?_⟩
      · rw [h2.1, h3]
        omega
      · rw [h2.2, h4]

lemma isEmpty_false_of_ne_nil {l : List String} (h : l ≠ []) : l.isEmpty = false := by
  cases hf : l with
  | nil => exact absurd hf h
  | cons a t => rfl

/-- A completed one-worker run over one job: the worker passes its check,
claims index 0, records it, passes its check again, and exits on the
out-of-range claim of index 1. -/
lemma traceOneJob : BTrace 1 (initState 1)
    [BEvent.checkPass 0, BEvent.claim 0 0, BEvent.record 0 0, BEvent.checkPass 0,
     BEvent.claim 0 1]
    ⟨false, 2, [WPC.done], [0]⟩ := by
  refine BTrace.cons _ _ ⟨false, 0, [WPC.atClaim], []⟩ _ _ (BStep.checkPass _ 0 rfl rfl) ?_
  refine BTrace.cons _ _ ⟨false, 1, [WPC.processing 0], []⟩ _ _
    (BStep.claimInRange _ 0 rfl (by decide)) ?_
  refine BTrace.cons _ _ ⟨false, 1, [WPC.atCheck], [0]⟩ _ _ (BStep.record _ 0 0 rfl) ?_
  refine BTrace.cons _ _ ⟨false, 1, [WPC.atClaim], [0]⟩ _ _ (BStep.checkPass _ 0 rfl rfl) ?_
  refine BTrace.cons _ _ ⟨false, 2, [WPC.done], [0]⟩ _ _ (BStep.claimOut _ 0 rfl (by decide)) ?_
  exact BTrace.nil _

/-- A one-worker run over two jobs where the flag is set between the
worker's while-condition check and its fetch_add: the worker still claims
index 1 after the cancellation event, converts it, records it, and only then
observes the flag and exits. -/
lemma traceCancelOverrun : BTrace 2 (initState 1)
    [BEvent.checkPass 0, BEvent.claim 0 0, BEvent.record 0 0, BEvent.checkPass 0,
     BEvent.cancelEv, BEvent.claim 0 1, BEvent.record 0 1, BEvent.checkExit 0]
    ⟨true, 2, [WPC.done], [0, 1]⟩ := by
  refine BTrace.cons _ _ ⟨false, 0, [WPC.atClaim], []⟩ _ _ (BStep.checkPass _ 0 rfl rfl) ?_
  refine BTrace.cons _ _ ⟨false, 1, [WPC.processing 0], []⟩ _ _
    (BStep.claimInRange _ 0 rfl (by decide)) ?_
  refine BTrace.cons _ _ ⟨false, 1, [WPC.atCheck], [0]⟩ _ _ (BStep.record _ 0 0 rfl) ?_
  refine BTrace.cons _ _ ⟨false, 1, [WPC.atClaim], [0]⟩ _ _ (BStep.checkPass _ 0 rfl rfl) ?_
  refine BTrace.cons _ _ ⟨true, 1, [WPC.atClaim], [0]⟩ _ _ (BStep.cancel _ rfl) ?_
  refine BTrace.cons _ _ ⟨true, 2, [WPC.processing 1], [0]⟩ _ _
    (BStep.claimInRange _ 0 rfl (by decide)) ?_
  refine BTrace.cons _ _ ⟨true, 2, [WPC.atCheck], [0, 1]⟩ _ _ (BStep.record _ 0 1 rfl) ?_
  refine BTrace.cons _ _ ⟨true, 2, [WPC.done], [0, 1]⟩ _ _ (BStep.checkExit _ 0 rfl rfl) ?_
  exact BTrace.nil _

/-- Claim C1 (corrected): the completion invariant successful_conversions +
failed_conversions = total_pdfs holds for every run that returns through the
empty-input early return and for every worker phase that runs to completion
without cancellation with at least one worker; on the output-directory
failure early return the counters stay zero while total_pdfs already holds
the discovered count, so the invariant fails there (see the
counterexample). -/
theorem batch_invariant_completed_runs :
    (∀ (ensure_ok : Bool) (conv : String → ConversionResult) (num_threads : Int),
        (process_directory ⟨[], ensure_ok, conv⟩ num_threads).1.successful_conversions
          + (process_directory ⟨[], ensure_ok, conv⟩ num_threads).1.failed_conversions
        = (process_directory ⟨[], ensure_ok, conv⟩ num_threads).1.total_pdfs)
    ∧ ∀ (N k : Nat) (file : Nat → String) (conv : Nat → ConversionResult)
        (evs : List BEvent) (s : BState),
        1 ≤ k → BTrace N (initState k) evs s → terminalState s →
        BEvent.cancelEv ∉ evs →
        (aggregate_recorded file conv N s.recorded).successful_conversions
          + (aggregate_recorded file conv N s.recorded).failed_conversions
        = (aggregate_recorded file conv N s.recorded).total_pdfs := by
  constructor
  · intro ensure_ok conv num_threads
    simp [process_directory]
  · intro N k file conv evs s hk htr hterm hnc
    obtain ⟨hlen, hdone, hpcount, hcnt⟩ := reachInv_trace htr (reachInv_init N k)
    have hcancel : s.cancel = false := by
      rw [cancel_of_not_mem htr hnc]
      rfl
    have hne : s.workers ≠ [] := by
      intro hnil
      rw [hnil] at hlen
      simp at hlen
      omega
    obtain ⟨pc, hpc⟩ := List.exists_mem_of_ne_nil s.workers hne
    have hdonemem : WPC.done ∈ s.workers := by
      rw [← hterm pc hpc]
      exact hpc
    have hNle := hdone hcancel hdonemem
    have hproc : processingCount s.workers = 0 :=
      pcount_eq_zero fun a ha => by rw [hterm a ha]; rfl
    have hlenrec : s.recorded.length = N := by omega
    have hfold := record_foldl_counts file conv s.recorded
      { total_pdfs := N, successful_conversions := 0, failed_conversions := 0,
        total_pages_converted := 0, errors := [] }
    rw [aggregate_recorded, hfold.1, hfold.2]
    simp [hlenrec]

/-- Claim C1, counterexample as stated: a run over one discovered PDF whose
output-directory preparation fails returns total_pdfs = 1 with zero
successes and zero failures, so successful + failed is not total_pdfs. -/
theorem batch_invariant_fails_on_dir_failure :
    ¬ ((process_directory ⟨["a.pdf"], false, fun _ => ⟨true, "", 1⟩⟩ 4).1.successful_conversions
        + (process_directory ⟨["a.pdf"], false, fun _ => ⟨true, "", 1⟩⟩ 4).1.failed_conversions
      = (process_directory ⟨["a.pdf"], false, fun _ => ⟨true, "", 1⟩⟩ 4).1.total_pdfs) := by
  decide

/-- Claim C1, witness: the empty-input branch and the completed one-worker
one-job interleaving both satisfy the completion invariant. -/
theorem batch_invariant_completed_runs_witness :
    ((process_directory ⟨[], true, fun _ => ⟨true, "", 1⟩⟩ 1).1.successful_conversions
        + (process_directory ⟨[], true, fun _ => ⟨true, "", 1⟩⟩ 1).1.failed_conversions
      = (process_directory ⟨[], true, fun _ => ⟨true, "", 1⟩⟩ 1).1.total_pdfs)
    ∧ ((aggregate_recorded (fun _ => "a.pdf") (fun _ => ⟨true, "", 1⟩) 1
          [0]).successful_conversions
        + (aggregate_recorded (fun _ => "a.pdf") (fun _ => ⟨true, "", 1⟩) 1
            [0]).failed_conversions
      = (aggregate_recorded (fun _ => "a.pdf") (fun _ => ⟨true, "", 1⟩) 1 [0]).total_pdfs) := by
  constructor
  · exact batch_invariant_completed_runs.1 true (fun _ => ⟨true, "", 1⟩) 1
  · exact batch_invariant_completed_runs.2 1 1 (fun _ => "a.pdf") (fun _ => ⟨true, "", 1⟩)
      _ ⟨false, 2, [WPC.done], [0]⟩ (by decide) traceOneJob (by simp [terminalState])
      (by decide)

/-- Claim C2: for a document that loads with P pages of which S page tasks
succeed, convert_pdf returns pages_converted = S and success exactly when
S > 0, and a document with no successfully converted page (including one
with zero pages) is a failed result carrying the explanatory message; S
counts the outcomes of all P dispatched tasks, so no failure short-circuits
the others. -/
theorem convert_pdf_success_counts (doc : Document) (S : Nat)
    (hS : S = (List.range doc.pages).countP fun i => doc.create_page_ok i && doc.save_ok i) :
    (convert_pdf (some doc)).pages_converted = S
    ∧ ((convert_pdf (some doc)).success = true ↔ 0 < S)
    ∧ (S = 0 → (convert_pdf (some doc)).success = false
        ∧ (convert_pdf (some doc)).error_message = "No pages were successfully converted") := by
  subst hS
  have hcomp : ((fun b : Bool => b) ∘ fun i => doc.create_page_ok i && doc.save_ok i)
      = fun i => doc.create_page_ok i && doc.save_ok i := rfl
  simp only [convert_pdf, foldl_count_bools, List.countP_map, Nat.zero_add, hcomp]
  by_cases h : 0 < (List.range doc.pages).countP fun i => doc.create_page_ok i && doc.save_ok i
  · rw [if_pos h]
    refine ⟨rfl, iff_of_true rfl h, ?_⟩
    intro h0
    exact absurd h0 (by omega)
  · rw [if_neg h]
    refine ⟨rfl, iff_of_false (by simp) h, ?_⟩
    intro h0
    exact ⟨rfl, rfl⟩

/-- Claim C2, witness: a two-page document whose saves all fail has S = 0,
a failed result, zero pages converted and the explanatory message. -/
theorem convert_pdf_success_counts_witness :
    (convert_pdf (some ⟨2, fun _ => true, fun _ => false⟩)).pages_converted = 0
    ∧ ((convert_pdf (some ⟨2, fun _ => true, fun _ => false⟩)).success = true ↔ 0 < 0)
    ∧ (0 = 0 → (convert_pdf (some ⟨2, fun _ => true, fun _ => false⟩)).success = false
        ∧ (convert_pdf (some ⟨2, fun _ => true, fun _ => false⟩)).error_message
          = "No pages were successfully converted") :=
  convert_pdf_success_counts ⟨2, fun _ => true, fun _ => false⟩ 0 (by decide)

/-- Claim C3 (amended): when output-directory preparation fails,
process_directory performs the preparation exactly once, spawns no worker,
converts no document, and returns zero successes, failures and pages with
exactly one error entry; total_pdfs however already holds the discovered
file count rather than zero (see the counterexample). -/
theorem process_directory_dir_failure (env : RunEnv) (num_threads : Int)
    (h1 : env.pdf_files ≠ []) (h2 : env.ensure_output_ok = false) :
    process_directory env num_threads
      = ({ total_pdfs := env.pdf_files.length, successful_conversions := 0,
           failed_conversions := 0, total_pages_converted := 0,
           errors := ["Failed to create output directory"] },
         [BatchAction.prepOutputDir]) := by
  have hne := isEmpty_false_of_ne_nil h1
  simp only [process_directory]
  rw [if_neg (by simp [hne]), if_pos h2]

/-- Claim C3, counterexample as stated: with one discovered PDF and failing
preparation the returned total_pdfs is 1, not zero. -/
theorem process_directory_dir_failure_total_nonzero :
    ¬ ((process_directory ⟨["a.pdf"], false, fun _ => ⟨true, "", 1⟩⟩ 4).1.total_pdfs = 0) := by
  decide

/-- Claim C3, witness: the amended description evaluated on a concrete
failing run. -/
theorem process_directory_dir_failure_witness :
    process_directory ⟨["a.pdf"], false, fun _ => ⟨true, "", 1⟩⟩ 4
      = ({ total_pdfs := 1, successful_conversions := 0, failed_conversions := 0,
           total_pages_converted := 0,
           errors := ["Failed to create output directory"] },
         [BatchAction.prepOutputDir]) := by
  have h := process_directory_dir_failure ⟨["a.pdf"], false, fun _ => ⟨true, "", 1⟩⟩ 4
    (by decide) rfl
  rw [h]
  rfl

/-- Claim C4 (amended): a requested worker count ≤ 0 is normalized to the
detected hardware concurrency and a positive request is kept; the run then
spawns exactly the normalized count of workers — in particular, when the
normalized count is 0 (hardware concurrency undetectable) no worker is
spawned at all; there is no fallback to one worker (see the
counterexample). -/
theorem spawn_count_matches_normalized (requested : Int) (hardware_concurrency : Nat)
    (env : RunEnv) (h1 : env.pdf_files ≠ []) (h2 : env.ensure_output_ok = true) :
    (requested ≤ 0 → normalize_thread_count requested hardware_concurrency
        = (hardware_concurrency : Int))
    ∧ (0 < requested → normalize_thread_count requested hardware_concurrency = requested)
    ∧ (process_directory env (normalize_thread_count requested hardware_concurrency)).2.count
        BatchAction.spawnWorker
      = (normalize_thread_count requested hardware_concurrency).toNat := by
  have hne := isEmpty_false_of_ne_nil h1
  refine ⟨?_, ?_, ?_⟩
  · intro h
    rw [normalize_thread_count, if_pos h]
  · intro h
    rw [normalize_thread_count, if_neg (by omega)]
  · simp only [process_directory]
    rw [if_neg (by simp [hne]), if_neg (by simp [h2])]
    by_cases h0 : (normalize_thread_count requested hardware_concurrency).toNat = 0
    · rw [if_pos h0, h0]
      rfl
    · rw [if_neg h0]
      rw [List.count_cons, List.count_append]
      have hrep : List.count BatchAction.spawnWorker
          (List.replicate (normalize_thread_count requested hardware_concurrency).toNat
            BatchAction.spawnWorker)
          = (normalize_thread_count requested hardware_concurrency).toNat := by
        rw [List.count_replicate_self]
      have hmap : List.count BatchAction.spawnWorker
          (env.pdf_files.map BatchAction.convertJob) = 0 := by
        rw [List.count_eq_zero]
        intro hmem
        obtain ⟨f, _, hf⟩ := List.mem_map.mp hmem
        cases hf
      rw [hrep, hmap]
      simp

/-- Claim C4, counterexample as stated: with undetectable hardware
concurrency a requested count of 0 normalizes to 0 and the run spawns zero
workers, not the claimed fallback of one. -/
theorem spawn_no_fallback_to_one :
    ¬ ((process_directory ⟨["a.pdf"], true, fun _ => ⟨true, "", 1⟩⟩
          (normalize_thread_count 0 0)).2.count BatchAction.spawnWorker = 1) := by
  decide

/-- Claim C4, witness: the amended statement evaluated at requested count 0
with hardware concurrency 0 on a one-file run. -/
theorem spawn_count_matches_normalized_witness :
    ((0 : Int) ≤ 0 → normalize_thread_count 0 0 = ((0 : Nat) : Int))
    ∧ ((0 : Int) < 0 → normalize_thread_count 0 0 = 0)
    ∧ (process_directory ⟨["a.pdf"], true, fun _ => ⟨true, "", 1⟩⟩
          (normalize_thread_count 0 0)).2.count BatchAction.spawnWorker
      = (normalize_thread_count 0 0).toNat :=
  spawn_count_matches_normalized 0 0 ⟨["a.pdf"], true, fun _ => ⟨true, "", 1⟩⟩
    (by decide) rfl

/-- Claim C5 as stated: once the cancellation token is set after claim index
K has been taken, no worker claims any index greater than K. -/
def NoClaimsAfterCancel (N k : Nat) : Prop :=
  ∀ (evs l1 l2 l3 : List BEvent) (s : BState) (w w2 K j : Nat),
    BTrace N (initState k) evs s →
    evs = l1 ++ BEvent.claim w K :: l2 ++ BEvent.cancelEv :: l3 →
    BEvent.claim w2 j ∈ l3 →
    j ≤ K

/-- Claim C5, counterexample as stated: the source checks the flag and then
claims in two separate steps, so a worker that passed its check before the
flag was set still claims one more index; in the exhibited two-job
interleaving the token is set after index 0 was claimed, yet index 1 is
claimed afterwards. -/
theorem cancellation_claim_overrun : ¬ NoClaimsAfterCancel 2 1 := by
  intro h
  have h2 := h
    [BEvent.checkPass 0, BEvent.claim 0 0, BEvent.record 0 0, BEvent.checkPass 0,
     BEvent.cancelEv, BEvent.claim 0 1, BEvent.record 0 1, BEvent.checkExit 0]
    [BEvent.checkPass 0] [BEvent.record 0 0, BEvent.checkPass 0]
    [BEvent.claim 0 1, BEvent.record 0 1, BEvent.checkExit 0]
    ⟨true, 2, [WPC.done], [0, 1]⟩ 0 0 0 1
    traceCancelOverrun rfl (by decide)
  omega

/-- Claim C5 (amended): after the cancellation event each worker performs at
most one further claim (the one it was already committed to after passing
its check), and in every terminal state every in-range claimed index is
recorded exactly once — in-flight work completes and is never dropped. -/
theorem cancellation_amended (N k : Nat) (evs l1 l3 : List BEvent) (s : BState)
    (htr : BTrace N (initState k) evs s)
    (hsplit : evs = l1 ++ BEvent.cancelEv :: l3) :
    (∀ w, claimsBy w l3 ≤ 1)
    ∧ (terminalState s → ∀ idx, idx < N → idx < s.fileIndex →
        List.count idx s.recorded = 1) := by
  constructor
  · intro w
    subst hsplit
    obtain ⟨smid, h1, h2⟩ := btrace_append_split l1 htr
    obtain ⟨smid2, hstep, hrest⟩ := btrace_cons_split h2
    have hcanc : smid2.cancel = true := by
      rw [cancel_step_inversion hstep]
    have h3 := claims_le_potential hrest hcanc w
    have h4 := claimPotential_le_one smid2 w
    omega
  · intro hterm idx hidxN hidxF
    obtain ⟨hlen, hdone, hpcount, hcnt⟩ := reachInv_trace htr (reachInv_init N k)
    have hwc : wcount (WPC.processing idx) s.workers = 0 :=
      wcount_eq_zero fun a ha => by rw [hterm a ha]; simp
    have h5 := hcnt idx
    rw [hwc, if_pos (by omega)] at h5
    omega

/-- Claim C5, witness: on the exhibited cancelled interleaving the worker
claims only once after the cancellation event, and the overrun job claimed
after the token was set is still recorded exactly once in the final
result. -/
theorem cancellation_amended_witness :
    claimsBy 0 [BEvent.claim 0 1, BEvent.record 0 1, BEvent.checkExit 0] ≤ 1
    ∧ List.count 1 [0, 1] = 1 := by
  have h := cancellation_amended 2 1 _
    [BEvent.checkPass 0, BEvent.claim 0 0, BEvent.record 0 0, BEvent.checkPass 0]
    [BEvent.claim 0 1, BEvent.record 0 1, BEvent.checkExit 0]
    ⟨true, 2, [WPC.done], [0, 1]⟩
    traceCancelOverrun rfl
  exact ⟨h.1 0, h.2 (by simp [terminalState]) 1 (by decide) (by decide)⟩

/-- Claim C6 (amended): for page numbers 1 to 999 the generated filename is
the document stem, the literal "_page_", the page number zero-padded to
width 3 and the extension, with the padded field exactly 3 characters wide;
for page numbers of four or more digits the size_t pad-count computation
3 - length wraps around and the std::string fill constructor throws instead
of returning a name (see the counterexample). -/
theorem generate_output_filename_padded (pdf_path extension : String) (page_number : Int)
    (h1 : 1 ≤ page_number) (h2 : page_number ≤ 999) :
    generate_output_filename pdf_path page_number extension
      = some (path_stem pdf_path ++ "_page_"
          ++ zero_pad_width_3 (int_to_string page_number) ++ "." ++ extension)
    ∧ (zero_pad_width_3 (int_to_string page_number)).length = 3 := by
  have hlen := int_to_string_length_le page_number h1 h2
  constructor
  · simp only [generate_output_filename]
    rw [if_pos hlen, zero_pad_width_3]
    simp [String.append_assoc]
  · exact zero_pad_width_3_length _ hlen

/-- Claim C6, counterexample as stated: page 1000 produces no filename at
all — the pad count underflows and the construction throws — rather than
the claimed stem + "_page_" + padded number + extension. -/
theorem generate_output_filename_thousand :
    generate_output_filename "report.pdf" 1000 "png" = none := by
  decide

/-- Claim C6, witness: page 7 of report.pdf with format png yields
report_page_007.png. -/
theorem generate_output_filename_padded_witness :
    generate_output_filename "report.pdf" 7 "png" = some "report_page_007.png" := by
  have h := (generate_output_filename_padded "report.pdf" "png" 7 (by decide) (by decide)).1
  rw [h]
  decide

/-- Claim C7: the render scale starts at dpi/72 on both axes; a configured
maximum recomputes the scale on an exceeded axis as maximum over page
dimension; preserve-aspect-ratio forces both axes to the smaller factor and
otherwise the axes scale independently — the computation in
save_page_as_image coincides with that specification clause on every input,
and the spec scenario (maxWidth 800, preserve on, 600x800pt at 300 dpi)
yields the uniform scale 800/600 recomputed from the width constraint. -/
theorem save_page_scale_matches_spec :
    (∀ (page_width page_height : Rat) (options : ConversionOptions),
        compute_scale page_width page_height options
          = spec_scale page_width page_height options)
    ∧ compute_scale 600 800 ⟨300, "png", true, 800, 0⟩
        = { scale_x := 800 / 600, scale_y := 800 / 600 } := by
  constructor
  · intro pw ph o
    simp only [compute_scale, spec_scale]
    by_cases hmax : o.max_width > 0 ∨ o.max_height > 0
    · rw [if_pos hmax]
    · rw [if_neg hmax]
      push_neg at hmax
      have hx : ¬ (o.max_width > 0 ∧ pw * (o.dpi / 72) > (o.max_width : Rat)) :=
        fun hc => absurd hc.1 (by omega)
      have hy : ¬ (o.max_height > 0 ∧ ph * (o.dpi / 72) > (o.max_height : Rat)) :=
        fun hc => absurd hc.1 (by omega)
      rw [if_neg hx, if_neg hy]
      split
      · rw [rat_min, if_neg (lt_irrefl _)]
      · rfl
  · norm_num [compute_scale, rat_min]

/-- Claim C8: a run whose discovered job list is empty returns immediately
with all counters zero and the single error entry, performing no
preparation, spawning no worker and converting nothing. -/
theorem process_directory_empty_input (env : RunEnv) (num_threads : Int)
    (h : env.pdf_files = []) :
    process_directory env num_threads
      = ({ total_pdfs := 0, successful_conversions := 0, failed_conversions := 0,
           total_pages_converted := 0,
           errors := ["No PDF files found in input directory"] }, [])
    ∧ (process_directory env num_threads).2.count BatchAction.spawnWorker = 0 := by
  have h1 : process_directory env num_threads
      = ({ total_pdfs := 0, successful_conversions := 0, failed_conversions := 0,
           total_pages_converted := 0,
           errors := ["No PDF files found in input directory"] }, []) := by
    simp [process_directory, h]
  exact ⟨h1, by rw [h1]; rfl⟩

/-- Claim C8, witness: a run over an empty discovered list. -/
theorem process_directory_empty_input_witness :
    process_directory ⟨[], true, fun _ => ⟨true, "", 1⟩⟩ 4
      = ({ total_pdfs := 0, successful_conversions := 0, failed_conversions := 0,
           total_pages_converted := 0,
           errors := ["No PDF files found in input directory"] }, [])
    ∧ (process_directory ⟨[], true, fun _ => ⟨true, "", 1⟩⟩ 4).2.count
        BatchAction.spawnWorker = 0 :=
  process_directory_empty_input ⟨[], true, fun _ => ⟨true, "", 1⟩⟩ 4 rfl

/-- Claim C9: convert_page on a successfully loaded document rejects a page
number below 1 or above the page count with a failed result carrying
"Invalid page number", zero pages converted, and no page rendered or
saved. -/
theorem convert_page_invalid_page (doc : Document) (page_number : Int)
    (h : page_number < 1 ∨ page_number > (doc.pages : Int)) :
    convert_page (some doc) page_number
      = ({ success := false, error_message := "Invalid page number",
           pages_converted := 0 }, []) := by
  simp only [convert_page]
  rw [if_pos h]

/-- Claim C9, witness: page 5 of a two-page document. -/
theorem convert_page_invalid_page_witness :
    convert_page (some ⟨2, fun _ => true, fun _ => true⟩) 5
      = ({ success := false, error_message := "Invalid page number",
           pages_converted := 0 }, []) :=
  convert_page_invalid_page ⟨2, fun _ => true, fun _ => true⟩ 5 (by decide)

/-- Claim C10: every ConversionResult produced by convert_pdf or
convert_page has success = true exactly when its error message is the empty
string. -/
theorem conversion_result_success_iff_no_error :
    (∀ load_result : Option Document,
        ((convert_pdf load_result).success = true
          ↔ (convert_pdf load_result).error_message = ""))
    ∧ ∀ (load_result : Option Document) (page_number : Int),
        ((convert_page load_result page_number).1.success = true
          ↔ (convert_page load_result page_number).1.error_message = "") := by
  constructor
  · intro lr
    cases lr with
    | none => simp [convert_pdf]
    | some doc =>
        simp only [convert_pdf]
        split
        · simp
        · simp
  · intro lr p
    cases lr with
    | none => simp [convert_page]
    | some doc =>
        simp only [convert_page]
        split
        · simp
        · split
          · simp
          · split
            · simp
            · simp
